import Mathlib

/-!
Verification of the core of the `url-shortener` repository against its
specification: the base-62 encoder (`src/app/utils.py`), the validators and
cache manager (`src/app/utils.py`), the data model (`src/app/models.py`) and
the service orchestration (`src/app/services.py`) are shallowly embedded as
executable Lean definitions, and the claims of the spec are settled as theorems.
-/

set_option maxRecDepth 8000

namespace UrlShortener

/-- The base-62 alphabet of `Base62Encoder` in `src/app/utils.py`:
`string.digits + string.ascii_lowercase + string.ascii_uppercase`. -/
def ALPHABET : List Char :=
  "0123456789abcdefghijklmnopqrstuvwxyzABCDEFGHIJKLMNOPQRSTUVWXYZ".data

/-- `BASE = len(ALPHABET)`. -/
def BASE : Nat := ALPHABET.length

theorem BASE_eq : BASE = 62 := rfl

/-- `ALPHABET[d]` (out-of-range reads, which never occur for digits `< BASE`,
default to a space). -/
def alphabetChar (d : Nat) : Char := ALPHABET.getD d ' '

/-- The digit values produced by the `while num > 0` loop of
`Base62Encoder.encode`, least-significant first.  The loop is embedded with a
fuel parameter bounding the number of iterations; `encodeDigits` instantiates
the fuel with `n`, which always suffices because `num` strictly decreases. -/
def encodeDigitsAux : Nat → Nat → List Nat
  | 0, _ => []
  | _ + 1, 0 => []
  | fuel + 1, n + 1 => ((n + 1) % BASE) :: encodeDigitsAux fuel ((n + 1) / BASE)

def encodeDigits (n : Nat) : List Nat := encodeDigitsAux n n

theorem encodeDigitsAux_fuel :
    ∀ n f₁ f₂, n ≤ f₁ → n ≤ f₂ → encodeDigitsAux f₁ n = encodeDigitsAux f₂ n := by
  intro n
  induction n using Nat.strong_induction_on with
  | _ n ih =>
    intro f₁ f₂ h₁ h₂
    match n, f₁, f₂ with
    | 0, 0, 0 => rfl
    | 0, 0, _ + 1 => rfl
    | 0, _ + 1, 0 => rfl
    | 0, _ + 1, _ + 1 => rfl
    | m + 1, g₁ + 1, g₂ + 1 =>
      have hdiv : (m + 1) / BASE < m + 1 :=
        Nat.div_lt_self (Nat.succ_pos m) (by rw [BASE_eq]; omega)
      simp only [encodeDigitsAux]
      rw [ih ((m + 1) / BASE) hdiv g₁ g₂ (by omega) (by omega)]

theorem encodeDigits_zero : encodeDigits 0 = [] := rfl

theorem encodeDigits_pos (n : Nat) (h : n ≠ 0) :
    encodeDigits n = (n % BASE) :: encodeDigits (n / BASE) := by
  match n, h with
  | m + 1, _ =>
    show encodeDigitsAux (m + 1) (m + 1) = _
    simp only [encodeDigitsAux]
    have hdiv : (m + 1) / BASE < m + 1 :=
      Nat.div_lt_self (Nat.succ_pos m) (by rw [BASE_eq]; omega)
    rw [encodeDigitsAux_fuel ((m + 1) / BASE) m ((m + 1) / BASE) (by omega) (by omega)]
    rfl

/-- Python `str.zfill(7)` for strings without a leading sign character:
left-pad with `'0'` to a minimum width of 7. -/
def zfill7 (s : String) : String :=
  if 7 ≤ s.length then s else ⟨List.replicate (7 - s.length) '0' ++ s.data⟩

/-- `Base62Encoder.encode` from `src/app/utils.py`: `0` short-circuits to
`ALPHABET[0]`; otherwise the loop collects `ALPHABET[num % BASE]`
least-significant first, the result is reversed, joined and `zfill(7)`-padded. -/
def encode (num : Nat) : String :=
  if num = 0 then ⟨[alphabetChar 0]⟩
  else zfill7 ⟨((encodeDigits num).map alphabetChar).reverse⟩

/-- The loop body of `Base62Encoder.decode`: `num = num * BASE + ALPHABET.index(char)`. -/
def decodeStep (num : Nat) (c : Char) : Nat := num * BASE + ALPHABET.indexOf c

/-- `Base62Encoder.decode` from `src/app/utils.py`: the loop body folded
left-to-right over the characters.  (the Python `.index` method raises for characters
outside the alphabet; `List.indexOf` is total, the two agree on every character
of the alphabet, which is all the round-trip claims exercise.) -/
def decode (s : String) : Nat :=
  s.data.foldl decodeStep 0

theorem alphabet_indexOf_alphabetChar : ∀ d, d < 62 → ALPHABET.indexOf (alphabetChar d) = d := by
  decide

theorem foldl_decodeStep_encodeDigits (n : Nat) : ∀ acc : Nat,
    (((encodeDigits n).map alphabetChar).reverse).foldl decodeStep acc
      = acc * BASE ^ (encodeDigits n).length + n := by
  induction n using Nat.strong_induction_on with
  | _ n ih =>
    intro acc
    by_cases h : n = 0
    · subst h
      simp [encodeDigits_zero]
    · rw [encodeDigits_pos n h]
      simp only [List.map_cons, List.reverse_cons, List.foldl_append, List.foldl_cons,
        List.foldl_nil, List.length_cons]
      rw [ih (n / BASE) (Nat.div_lt_self (Nat.pos_of_ne_zero h) (by rw [BASE_eq]; omega)) acc]
      show (acc * BASE ^ (encodeDigits (n / BASE)).length + n / BASE) * BASE
            + ALPHABET.indexOf (alphabetChar (n % BASE)) = _
      rw [alphabet_indexOf_alphabetChar (n % BASE) (by rw [BASE_eq]; omega)]
      calc (acc * BASE ^ (encodeDigits (n / BASE)).length + n / BASE) * BASE + n % BASE
          = acc * (BASE ^ (encodeDigits (n / BASE)).length * BASE)
            + (BASE * (n / BASE) + n % BASE) := by ring
        _ = acc * BASE ^ ((encodeDigits (n / BASE)).length + 1) + n := by
            rw [Nat.div_add_mod, pow_succ]

theorem foldl_decodeStep_zeros : ∀ k, (List.replicate k '0').foldl decodeStep 0 = 0 := by
  intro k
  induction k with
  | zero => rfl
  | succ k ih =>
    show (List.replicate k '0').foldl decodeStep (decodeStep 0 '0') = 0
    have h0 : decodeStep 0 '0' = 0 := by decide
    rw [h0, ih]

/-- The encoder round-trips on every natural number. -/
theorem decode_encode (n : Nat) : decode (encode n) = n := by
  by_cases h : n = 0
  · subst h; decide
  · rw [encode, if_neg h, zfill7]
    split
    · show (((encodeDigits n).map alphabetChar).reverse).foldl decodeStep 0 = n
      rw [foldl_decodeStep_encodeDigits]
      simp
    · show (List.replicate (7 - (String.mk (((encodeDigits n).map alphabetChar).reverse)).length)
        '0' ++ ((encodeDigits n).map alphabetChar).reverse).foldl decodeStep 0 = n
      rw [List.foldl_append, foldl_decodeStep_zeros, foldl_decodeStep_encodeDigits]
      simp

theorem encodeDigits_length_le : ∀ k n, n < BASE ^ k → (encodeDigits n).length ≤ k := by
  intro k
  induction k with
  | zero =>
    intro n h
    simp only [pow_zero, Nat.lt_one_iff] at h
    subst h
    simp [encodeDigits_zero]
  | succ k ih =>
    intro n h
    by_cases h0 : n = 0
    · subst h0; simp [encodeDigits_zero]
    · rw [encodeDigits_pos n h0]
      simp only [List.length_cons]
      have : n / BASE < BASE ^ k := by
        rw [Nat.div_lt_iff_lt_mul (by rw [BASE_eq]; omega)]
        calc n < BASE ^ (k + 1) := h
          _ = BASE ^ k * BASE := pow_succ BASE k
      exact Nat.succ_le_succ (ih _ this)

theorem encodeDigits_length_ge : ∀ k n, BASE ^ k ≤ n → k + 1 ≤ (encodeDigits n).length := by
  intro k
  induction k with
  | zero =>
    intro n h
    simp only [pow_zero] at h
    rw [encodeDigits_pos n (by omega)]
    simp
  | succ k ih =>
    intro n h
    have hpos : 0 < BASE ^ (k + 1) := by rw [BASE_eq]; positivity
    rw [encodeDigits_pos n (by omega)]
    simp only [List.length_cons]
    have : BASE ^ k ≤ n / BASE := by
      rw [Nat.le_div_iff_mul_le (by rw [BASE_eq]; omega)]
      calc BASE ^ k * BASE = BASE ^ (k + 1) := (pow_succ BASE k).symm
        _ ≤ n := h
    exact Nat.succ_le_succ (ih _ this)

/-- Strict lexicographic comparison of two lists of naturals (shorter prefixes
compare smaller, first differing position decides). -/
def listLtB : List Nat → List Nat → Bool
  | [], [] => false
  | [], _ :: _ => true
  | _ :: _, [] => false
  | a :: as, b :: bs => if a < b then true else if b < a then false else listLtB as bs

/-- Ordinary (code-point) string comparison, as the Python `<` on `str` performs:
lexicographic over the code points of the characters. -/
def strLt (s t : String) : Bool :=
  listLtB (s.data.map Char.toNat) (t.data.map Char.toNat)

/-- The position of a character in `ALPHABET` (its base-62 digit value). -/
def alphaRank (c : Char) : Nat := ALPHABET.indexOf c

/-- Lexicographic comparison of strings where characters are ranked by their
position in `ALPHABET` instead of by code point. -/
def alphaLt (s t : String) : Prop :=
  listLtB (s.data.map alphaRank) (t.data.map alphaRank) = true

theorem listLtB_append_of_lt : ∀ xs ys zs ws : List Nat, xs.length = ys.length →
    listLtB xs ys = true → listLtB (xs ++ zs) (ys ++ ws) = true := by
  intro xs
  induction xs with
  | nil =>
    intro ys zs ws hlen h
    match ys with
    | [] => simp [listLtB] at h
  | cons a as ih =>
    intro ys zs ws hlen h
    match ys with
    | b :: bs =>
      simp only [List.cons_append, listLtB] at h ⊢
      by_cases hab : a < b
      · simp [hab]
      · by_cases hba : b < a
        · simp [hab, hba] at h
        · simp only [hab, hba, if_false] at h ⊢
          exact ih bs zs ws (by simpa using hlen) h

theorem listLtB_append_common : ∀ p : List Nat, ∀ a b : Nat, ∀ as bs : List Nat,
    a < b → listLtB (p ++ a :: as) (p ++ b :: bs) = true := by
  intro p
  induction p with
  | nil => intro a b as bs hab; simp [listLtB, hab]
  | cons c p ih =>
    intro a b as bs hab
    simp only [List.cons_append, listLtB, Nat.lt_irrefl, if_false]
    exact ih a b as bs hab

theorem listLtB_rev_encodeDigits : ∀ b a : Nat, a < b →
    (encodeDigits a).length = (encodeDigits b).length →
    listLtB (encodeDigits a).reverse (encodeDigits b).reverse = true := by
  intro b
  induction b using Nat.strong_induction_on with
  | _ b ih =>
    intro a hab hlen
    have hb : b ≠ 0 := by omega
    by_cases ha : a = 0
    · subst ha
      rw [encodeDigits_zero, encodeDigits_pos b hb] at hlen
      simp at hlen
    · rw [encodeDigits_pos a ha, encodeDigits_pos b hb] at hlen ⊢
      simp only [List.length_cons, Nat.succ.injEq] at hlen
      simp only [List.reverse_cons]
      rcases Nat.lt_trichotomy (a / BASE) (b / BASE) with hdiv | hdiv | hdiv
      · exact listLtB_append_of_lt _ _ _ _
          (by simpa using hlen)
          (ih (b / BASE)
            (Nat.div_lt_self (Nat.pos_of_ne_zero hb) (by rw [BASE_eq]; omega))
            (a / BASE) hdiv hlen)
      · rw [hdiv]
        have hmod : a % BASE < b % BASE := by
          rw [BASE_eq] at hdiv ⊢
          omega
        exact listLtB_append_common _ _ _ _ _ hmod
      · exact absurd hdiv (Nat.not_lt.mpr (Nat.div_le_div_right (Nat.le_of_lt hab)))

theorem encodeDigits_all_lt (n : Nat) : ∀ d ∈ encodeDigits n, d < BASE := by
  induction n using Nat.strong_induction_on with
  | _ n ih =>
    intro d hd
    by_cases h : n = 0
    · subst h; simp [encodeDigits_zero] at hd
    · rw [encodeDigits_pos n h] at hd
      rcases List.mem_cons.mp hd with rfl | hd'
      · exact Nat.mod_lt n (by rw [BASE_eq]; omega)
      · exact ih (n / BASE) (Nat.div_lt_self (Nat.pos_of_ne_zero h) (by rw [BASE_eq]; omega)) d hd'

theorem map_alphaRank_map_alphabetChar (ds : List Nat) (h : ∀ d ∈ ds, d < BASE) :
    (ds.map alphabetChar).map alphaRank = ds := by
  induction ds with
  | nil => rfl
  | cons d ds ih =>
    simp only [List.map_cons, List.cons.injEq]
    constructor
    · exact alphabet_indexOf_alphabetChar d (by rw [← BASE_eq]; exact h d (List.mem_cons_self d ds))
    · exact ih (fun x hx => h x (List.mem_cons_of_mem d hx))

/-- For `62^6 ≤ n < 62^7`, `encode n` literally is the 7 base-62 digits of `n`,
most significant first. -/
theorem encode_data_of_seven (n : Nat) (h1 : BASE ^ 6 ≤ n) (h2 : n < BASE ^ 7) :
    (encode n).data = ((encodeDigits n).map alphabetChar).reverse
      ∧ (encodeDigits n).length = 7 := by
  have hn0 : n ≠ 0 := by
    intro h; subst h
    simp only [Nat.le_zero, BASE_eq] at h1
    omega
  have hge : 7 ≤ (encodeDigits n).length := encodeDigits_length_ge 6 n h1
  have hle : (encodeDigits n).length ≤ 7 := encodeDigits_length_le 7 n h2
  have hlen : (encodeDigits n).length = 7 := by omega
  refine ⟨?_, hlen⟩
  rw [encode, if_neg hn0, zfill7]
  have hslen : (String.mk (((encodeDigits n).map alphabetChar).reverse)).length = 7 := by
    show (((encodeDigits n).map alphabetChar).reverse).length = 7
    simp [hlen]
  rw [if_pos (by omega)]

/-- C1: for every integer `n` with `0 ≤ n < 10^15`, decoding the encoding is
the identity: `Base62Encoder.decode (Base62Encoder.encode n) = n`. -/
theorem claim_c1_roundtrip (n : Nat) (h : n < 10 ^ 15) : decode (encode n) = n :=
  decode_encode n

theorem claim_c1_roundtrip_witness :
    999999999999999 < 10 ^ 15 ∧ decode (encode 999999999999999) = 999999999999999 :=
  ⟨by norm_num, claim_c1_roundtrip 999999999999999 (by norm_num)⟩

/-- C2 fails as stated: `3521614606208 = 62^7` is at least `100000000000`, but
its encoding `"10000000"` has 8 characters, not 7 — `zfill(7)` only pads, it
never truncates, so an eighth base-62 digit appears from `62^7` upward. -/
theorem claim_c2_counterexample :
    100000000000 ≤ 3521614606208 ∧ ¬ (encode 3521614606208).length = 7 :=
  ⟨by norm_num, by decide⟩

/-- C2 (amended): for every integer `n` with `100000000000 ≤ n < 62^7`,
`Base62Encoder.encode n` has length exactly 7.  (The unbounded range of the claim
fails from `62^7` upward, where the natural representation gains an eighth
digit.) -/
theorem claim_c2_encode_length (n : Nat) (h1 : 100000000000 ≤ n) (h2 : n < 62 ^ 7) :
    (encode n).length = 7 := by
  have hn0 : n ≠ 0 := by omega
  have hle : (encodeDigits n).length ≤ 7 :=
    encodeDigits_length_le 7 n (by rw [BASE_eq]; exact h2)
  have hdata : (String.mk (((encodeDigits n).map alphabetChar).reverse)).length
      = (encodeDigits n).length := by
    show (((encodeDigits n).map alphabetChar).reverse).length = _
    simp
  rw [encode, if_neg hn0, zfill7]
  split
  next hc =>
    rw [hdata] at hc ⊢
    omega
  next hc =>
    rw [hdata] at hc
    show (List.replicate _ '0' ++ ((encodeDigits n).map alphabetChar).reverse).length = 7
    rw [List.length_append, List.length_replicate, hdata]
    simp only [List.length_reverse, List.length_map]
    omega

theorem claim_c2_encode_length_witness :
    100000000000 ≤ 100000000000 ∧ (100000000000 : Nat) < 62 ^ 7
      ∧ (encode 100000000000).length = 7 :=
  ⟨le_refl _, by norm_num, claim_c2_encode_length 100000000000 (le_refl _) (by norm_num)⟩

/-- C4 fails as stated: `113600471203 < 113600471204`, both at least
`100000000000`, yet `encode 113600471203 = "200000z"` is NOT lexicographically
smaller than `encode 113600471204 = "200000A"` under ordinary (code-point)
string comparison — `ALPHABET` lists lowercase before uppercase while code
points order uppercase first. -/
theorem claim_c4_counterexample :
    100000000000 ≤ 113600471203 ∧ 113600471203 < 113600471204
      ∧ strLt (encode 113600471203) (encode 113600471204) = false
      ∧ strLt (encode 113600471204) (encode 113600471203) = true :=
  ⟨by norm_num, by norm_num, by decide, by decide⟩

/-- C4 (amended): for every pair `100000000000 ≤ m < n < 62^7` (the window in
which allocator values encode to exactly 7 digits), `encode m` precedes
`encode n` in the lexicographic order that ranks characters by their position
in `ALPHABET` (digits, then lowercase, then uppercase) rather than by raw code
point. -/
theorem claim_c4_encode_monotone (m n : Nat) (h1 : 100000000000 ≤ m) (h2 : m < n)
    (h3 : n < 62 ^ 7) : alphaLt (encode m) (encode n) := by
  have h626 : (62 : Nat) ^ 6 = 56800235584 := by norm_num
  have hm6 : BASE ^ 6 ≤ m := by rw [BASE_eq]; omega
  have hn6 : BASE ^ 6 ≤ n := le_trans hm6 (Nat.le_of_lt h2)
  have hm7 : m < BASE ^ 7 := by rw [BASE_eq]; omega
  have hn7 : n < BASE ^ 7 := by rw [BASE_eq]; exact h3
  obtain ⟨hdm, hlm⟩ := encode_data_of_seven m hm6 hm7
  obtain ⟨hdn, hln⟩ := encode_data_of_seven n hn6 hn7
  show listLtB ((encode m).data.map alphaRank) ((encode n).data.map alphaRank) = true
  rw [hdm, hdn, List.map_reverse, List.map_reverse,
    map_alphaRank_map_alphabetChar _ (encodeDigits_all_lt m),
    map_alphaRank_map_alphabetChar _ (encodeDigits_all_lt n)]
  exact listLtB_rev_encodeDigits n m h2 (hlm.trans hln.symm)

theorem claim_c4_encode_monotone_witness :
    100000000000 ≤ 100000000000 ∧ 100000000000 < 100000000001
      ∧ (100000000001 : Nat) < 62 ^ 7
      ∧ alphaLt (encode 100000000000) (encode 100000000001) :=
  ⟨le_refl _, by norm_num, by norm_num,
    claim_c4_encode_monotone _ _ (le_refl _) (by norm_num) (by norm_num)⟩

/-- C7: `Base62Encoder.encode 0` returns the single-character string `"0"`,
not zero-padded to 7 characters (the `num == 0` early return skips `zfill`). -/
theorem claim_c7_encode_zero : encode 0 = "0" ∧ (encode 0).length = 1 :=
  ⟨by decide, by decide⟩

/-! ### Validators (`URLValidator` in `src/app/utils.py`)

`URLValidator.is_valid_url` delegates to the external `validators` package and
`urllib.parse`, neither of which is part of this repository, so the service
embedding below takes the URL validator as a parameter.
`is_valid_custom_code` is pure string logic and is embedded directly. -/

/-- The characters of `string.ascii_letters + string.digits + '-_'`. -/
def allowedCustomChar (c : Char) : Bool :=
  c.isUpper || c.isLower || c.isDigit || c == '-' || c == '_'

/-- `URLValidator.is_valid_custom_code`. -/
def is_valid_custom_code (code : String) : Bool × String :=
  if code = "" then (false, "Custom code cannot be empty")
  else if code.length < 3 || 16 < code.length then
    (false, "Custom code must be between 3 and 16 characters")
  else if !code.data.all allowedCustomChar then
    (false, "Custom code can only contain letters, numbers, hyphens, and underscores")
  else (true, "Valid custom code")

/-! ### Cache (`CacheManager` in `src/app/utils.py`) -/

/-- A Redis client as the cache layer sees it: each call either returns a
value or raises (`Except.error`).  `get` yields the cached string already
UTF-8-decoded, if any. -/
structure RedisClient where
  get : String → Except Unit (Option String)
  setex : String → Nat → String → Except Unit Unit
  del : String → Except Unit Unit

namespace CacheManager

/-- `CacheManager.get_url`: `None` when no backend is configured; the
`try/except` turns any raised error into `None`; an empty cached value is
falsy in Python and also yields `None`. -/
def get_url (redis : Option RedisClient) (short_code : String) : Option String :=
  match redis with
  | none => none
  | some r =>
    match r.get ("url:" ++ short_code) with
    | .ok (some cached) => if cached != "" then some cached else none
    | .ok none => none
    | .error _ => none

/-- `CacheManager.set_url`: best-effort `setex`, failures swallowed. -/
def set_url (redis : Option RedisClient) (ttl : Nat) (short_code original_url : String) :
    Unit :=
  match redis with
  | none => ()
  | some r =>
    match r.setex ("url:" ++ short_code) ttl original_url with
    | .ok _ => ()
    | .error _ => ()

/-- `CacheManager.delete_url`: best-effort `delete`, failures swallowed. -/
def delete_url (redis : Option RedisClient) (short_code : String) : Unit :=
  match redis with
  | none => ()
  | some r =>
    match r.del ("url:" ++ short_code) with
    | .ok _ => ()
    | .error _ => ()

end CacheManager

/-! ### Data model (`src/app/models.py`).  Timestamps are abstract ticks. -/

/-- A row of the `urls` table (the `URL` model). -/
structure URLRec where
  id : Nat
  original_url : String
  short_code : String
  user_id : Option Nat
  created_at : Nat
  expires_at : Option Nat
  is_active : Bool
  click_count : Nat
  is_custom : Bool
deriving DecidableEq

/-- `URL.is_expired`: true iff `expires_at` is set and `utcnow() > expires_at`. -/
def URLRec.is_expired (u : URLRec) (now : Nat) : Bool :=
  match u.expires_at with
  | some t => decide (t < now)
  | none => false

/-- A row of the `analytics` table (the surrogate `id` column is omitted;
no claim concerns it). -/
structure AnalyticsRec where
  url_id : Nat
  timestamp : Nat
  ip_address : Option String
  user_agent : Option String
  referrer : Option String
deriving DecidableEq

/-- A row of the `users` table (only the fields the service consults). -/
structure UserRec where
  id : Nat
  api_key : String
  is_active : Bool
deriving DecidableEq

/-- The database state: the three tables, the value of the `url_counter` row
(absent before first use) and the autoincrement source for `urls.id`. -/
structure DB where
  urls : List URLRec
  analytics : List AnalyticsRec
  users : List UserRec
  counter : Option Nat
  next_url_id : Nat
deriving DecidableEq

/-- `Counter.get_next_id` (sequential semantics, `src/app/models.py`):
query the `url_counter` row, lazily create it with the seed `100000000000`
when absent, `counter.value += 1`, commit, and return `counter.value`. -/
def Counter.get_next_id (counter : Option Nat) : Nat × Option Nat :=
  let v := match counter with
    | some v => v
    | none => 100000000000
  (v + 1, some (v + 1))

/-- The values returned by `k` successive sequential `Counter.get_next_id`
calls starting from counter-row state `s`. -/
def counterRuns : Option Nat → Nat → List Nat
  | _, 0 => []
  | s, k + 1 =>
    let r := Counter.get_next_id s
    r.1 :: counterRuns r.2 k

/-! ### Services (`URLShortenerService` in `src/app/services.py`) -/

/-- The JSON payload returned by `create_short_url`. -/
inductive CreatePayload
  | err (message : String)
  | ok (short_url short_code original_url : String) (created_at : Nat)
       (expires_at : Option Nat)
deriving DecidableEq

/-- The JSON payload returned by `get_original_url`: the cache fast path
returns only the URL, the store path the URL and the click count. -/
inductive ResolvePayload
  | err (message : String)
  | cached (original_url : String)
  | ok (original_url : String) (click_count : Nat)
deriving DecidableEq

/-- The `request_data` dict assembled by the redirect route. -/
structure RequestData where
  ip_address : Option String
  user_agent : Option String
  referrer : Option String
deriving DecidableEq

/-- Mutate the first row matching `p` in place (the object returned by
SQLAlchemy `.first()` is updated and committed). -/
def updateFirst (p : α → Bool) (f : α → α) : List α → List α
  | [] => []
  | x :: xs => if p x then f x :: xs else x :: updateFirst p f xs

/-- `URLShortenerService._track_analytics`: append one `Analytics` row; the
surrounding `try/except` swallows storage failures (the embedded append always
succeeds). -/
def track_analytics (db : DB) (rec : URLRec) (rd : RequestData) (now : Nat) : DB :=
  { db with analytics :=
      db.analytics ++ [⟨rec.id, now, rd.ip_address, rd.user_agent, rd.referrer⟩] }

/-- The row predicate of `URL.query.filter_by(short_code=..., is_active=True)`. -/
def activeWithCode (short_code : String) (u : URLRec) : Bool :=
  u.short_code == short_code && u.is_active

/-- The store path of `URLShortenerService.get_original_url` (lines 88–112 of
`src/app/services.py`): query for the first active row with the code, 404 when
absent, 410 when expired; otherwise track analytics when requested AND a
request context exists, bump the click count of the queried row, commit,
refresh the cache, and return the URL with the bumped count. -/
def resolve_from_store (redis : Option RedisClient) (db : DB) (short_code : String)
    (track : Bool) (request_data : Option RequestData) (now : Nat) :
    (ResolvePayload × Nat) × DB :=
  match db.urls.find? (activeWithCode short_code) with
  | none => ((.err "Short URL not found", 404), db)
  | some url_record =>
    if url_record.is_expired now then ((.err "Short URL has expired", 410), db)
    else
      let db1 := match track, request_data with
        | true, some rd => track_analytics db url_record rd now
        | _, _ => db
      let bump := fun u : URLRec => { u with click_count := u.click_count + 1 }
      let db2 := { db1 with urls := updateFirst (activeWithCode short_code) bump db1.urls }
      let _ := CacheManager.set_url redis 3600 short_code url_record.original_url
      ((.ok url_record.original_url (url_record.click_count + 1), 200), db2)

/-- `URLShortenerService.get_original_url`.  `redis` is the injected cache
backend and `now` the current time.  Returns the `(payload, HTTP status)` pair
together with the database state after the call.  The cache short-circuits
only a non-empty hit with tracking off; every other execution takes the store
path `resolve_from_store`. -/
def get_original_url (redis : Option RedisClient) (db : DB) (short_code : String)
    (track : Bool) (request_data : Option RequestData) (now : Nat) :
    (ResolvePayload × Nat) × DB :=
  match CacheManager.get_url redis short_code with
  | some cached_url =>
    if !track then ((.cached cached_url, 200), db)
    else resolve_from_store redis db short_code track request_data now
  | none => resolve_from_store redis db short_code track request_data now

/-- Steps 5–8 of `create_short_url` once the short code is fixed: compute
`expires_at` (`expires_in_days = 0` is falsy in Python), build the `URL` row,
`add` + `commit` — the commit enforces the table-wide unique index that
`src/app/models.py` declares on `urls.short_code` (`unique=True`), so a
violation raises, the `except` branch rolls back and returns a 500 — then
cache the mapping and return the created payload. -/
def insertUrlRecord (redis : Option RedisClient) (base_url : String) (db : DB)
    (original_url : String) (user : Option UserRec) (short_code : String)
    (is_custom : Bool) (expires_in_days : Option Nat) (now : Nat) :
    (CreatePayload × Nat) × DB :=
  let expires_at : Option Nat := match expires_in_days with
    | some d => if d != 0 then some (now + d * 86400) else none
    | none => none
  let url_record : URLRec :=
    { id := db.next_url_id, original_url := original_url, short_code := short_code,
      user_id := user.map (fun u => u.id), created_at := now, expires_at := expires_at,
      is_active := true, click_count := 0, is_custom := is_custom }
  if db.urls.any (fun u => u.short_code == short_code) then
    ((.err "Failed to create short URL", 500), db)
  else
    let db' := { db with urls := db.urls ++ [url_record],
                         next_url_id := db.next_url_id + 1 }
    let _ := CacheManager.set_url redis 3600 short_code original_url
    ((.ok (base_url ++ "/" ++ short_code) short_code original_url now expires_at, 201), db')

/-- `URLShortenerService.create_short_url`.  `url_valid` stands for
`URLValidator.is_valid_url` (external `validators` package, see above);
`base_url` is `BASE_URL` from the app config.  Empty-string `api_key` and
`custom_code` are falsy in Python and treated as absent. -/
def create_short_url (url_valid : String → Bool × String) (redis : Option RedisClient)
    (base_url : String) (db : DB) (original_url : String) (api_key : Option String)
    (custom_code : Option String) (expires_in_days : Option Nat) (now : Nat) :
    (CreatePayload × Nat) × DB :=
  let v := url_valid original_url
  if !v.1 then ((.err v.2, 400), db)
  else
    let api := match api_key with
      | some k => if k != "" then some k else none
      | none => none
    let user? : Option (Option UserRec) := match api with
      | none => some none
      | some k =>
        match db.users.find? (fun u => u.api_key == k && u.is_active) with
        | none => none
        | some u => some (some u)
    match user? with
    | none => ((.err "Invalid API key", 401), db)
    | some user =>
      let custom := match custom_code with
        | some c => if c != "" then some c else none
        | none => none
      match custom with
      | some c =>
        let vc := is_valid_custom_code c
        if !vc.1 then ((.err vc.2, 400), db)
        else if (db.urls.find? (activeWithCode c)).isSome then
          ((.err "Custom code already exists", 409), db)
        else
          insertUrlRecord redis base_url db original_url user c true expires_in_days now
      | none =>
        let r := Counter.get_next_id db.counter
        let db' := { db with counter := r.2 }
        insertUrlRecord redis base_url db' original_url user (encode r.1) false
          expires_in_days now

/-! ### Interleaved executions of `Counter.get_next_id` (C8) -/

/-- Two database sessions concurrently running `Counter.get_next_id`.
`shared` is the committed value of the `url_counter` row; `memA`/`memB` hold
the session-local `counter.value` loaded by the query of each session; `retA`/`retB`
are the values returned to the two callers. -/
structure CounterRace where
  shared : Nat
  memA : Option Nat
  memB : Option Nat
  retA : Option Nat
  retB : Option Nat
deriving DecidableEq

inductive SessionId | A | B
deriving DecidableEq

/-- The two I/O phases of a session in `Counter.get_next_id`: `load` is the
`cls.query.filter_by(...).first()` read of the committed row into session
memory; `commit` is `counter.value += 1; db.session.commit(); return
counter.value`, publishing the stale local value plus one.  The code issues no
row lock and no atomic SQL increment between the two phases. -/
inductive RaceEv | load | commit
deriving DecidableEq

def raceStep (s : CounterRace) : SessionId × RaceEv → CounterRace
  | (.A, .load) => { s with memA := some s.shared }
  | (.B, .load) => { s with memB := some s.shared }
  | (.A, .commit) =>
    match s.memA with
    | some v => { s with shared := v + 1, retA := some (v + 1) }
    | none => s
  | (.B, .commit) =>
    match s.memB with
    | some v => { s with shared := v + 1, retB := some (v + 1) }
    | none => s

/-- Run an interleaving of the phases of the two sessions. -/
def raceRun (init : CounterRace) (sched : List (SessionId × RaceEv)) : CounterRace :=
  sched.foldl raceStep init

/-! ### Helper lemmas about the service model -/

theorem counterRuns_some (v : Nat) : ∀ k, counterRuns (some v) k
    = (List.range k).map (fun i => v + 1 + i) := by
  intro k
  induction k generalizing v with
  | zero => rfl
  | succ k ih =>
    show (v + 1) :: counterRuns (some (v + 1)) k
        = (List.range (k + 1)).map (fun i => v + 1 + i)
    rw [List.range_succ_eq_map, List.map_cons, List.map_map, ih (v + 1)]
    congr 1
    apply List.map_congr_left
    intro i _
    simp only [Function.comp_apply]
    omega

theorem getD_map_range (f : Nat → Nat) (k i : Nat) (h : i < k) :
    ((List.range k).map f).getD i 0 = f i := by
  rw [List.getD_eq_getElem _ _ (by simpa using h)]
  simp

theorem find?_updateFirst (p : α → Bool) (f : α → α) :
    ∀ (l : List α) (r : α), l.find? p = some r → p (f r) = true →
      (updateFirst p f l).find? p = some (f r) := by
  intro l
  induction l with
  | nil => intro r h hp; simp at h
  | cons x xs ih =>
    intro r h hp
    by_cases hx : p x = true
    · rw [List.find?_cons_of_pos _ hx] at h
      injection h with h
      subst h
      simp only [updateFirst, if_pos hx]
      exact List.find?_cons_of_pos _ hp
    · rw [List.find?_cons_of_neg _ hx] at h
      simp only [updateFirst, if_neg hx]
      rw [List.find?_cons_of_neg _ hx]
      exact ih r h hp

/-- With tracking on, the cache fast path is disabled and resolution always
takes the store path. -/
theorem get_original_url_tracked (redis : Option RedisClient) (db : DB) (code : String)
    (rd : Option RequestData) (now : Nat) :
    get_original_url redis db code true rd now = resolve_from_store redis db code true rd now := by
  unfold get_original_url
  cases CacheManager.get_url redis code with
  | none => rfl
  | some cu => rfl

/-- The store path never reads the cache backend (it only issues a best-effort
write), so its result does not depend on it. -/
theorem resolve_from_store_redis (r₁ r₂ : Option RedisClient) (db : DB) (code : String)
    (track : Bool) (rd : Option RequestData) (now : Nat) :
    resolve_from_store r₁ db code track rd now = resolve_from_store r₂ db code track rd now := rfl

/-- A Redis backend every call of which raises. -/
def failingBackend (r : RedisClient) : Prop :=
  (∀ k, r.get k = .error ())
  ∧ (∀ k t v, r.setex k t v = .error ())
  ∧ (∀ k, r.del k = .error ())

/-! ### Sample states used by the witnesses -/

/-- An active link with code `"zzz"` that expired at tick 5. -/
def sampleExpiredUrl : URLRec :=
  { id := 1, original_url := "https://example.com/a", short_code := "zzz",
    user_id := none, created_at := 0, expires_at := some 5, is_active := true,
    click_count := 3, is_custom := false }

def sampleExpiredDb : DB :=
  { urls := [sampleExpiredUrl], analytics := [], users := [], counter := none,
    next_url_id := 2 }

/-- A soft-deleted link with code `"gone"`; no active row carries that code. -/
def sampleDeletedUrl : URLRec :=
  { id := 1, original_url := "https://example.com/b", short_code := "gone",
    user_id := none, created_at := 0, expires_at := none, is_active := false,
    click_count := 0, is_custom := true }

def sampleDeletedDb : DB :=
  { urls := [sampleDeletedUrl], analytics := [], users := [], counter := none,
    next_url_id := 2 }

/-- An active, unexpired link with code `"live"` and 4 clicks so far. -/
def sampleLiveUrl : URLRec :=
  { id := 1, original_url := "https://example.com/c", short_code := "live",
    user_id := none, created_at := 0, expires_at := none, is_active := true,
    click_count := 4, is_custom := false }

def sampleLiveDb : DB :=
  { urls := [sampleLiveUrl], analytics := [], users := [], counter := none,
    next_url_id := 2 }

/-! ### Remaining claims -/

/-- C5: with analytics tracking on (as the redirect route always requests),
`get_original_url` distinguishes its two failure modes, whatever the cache
holds: when the first active row carrying the code is expired, the result is
the 410 "Short URL has expired" error, not 404; and when the code belongs only
to soft-deleted rows (no active row carries it), the result is the 404
"Short URL not found" error. -/
theorem claim_c5_resolve_failure_modes (redis : Option RedisClient) (db : DB)
    (code : String) (rd : Option RequestData) (now : Nat) :
    (∀ r, db.urls.find? (activeWithCode code) = some r → r.is_expired now = true →
      (get_original_url redis db code true rd now).1 = (.err "Short URL has expired", 410))
    ∧ (∀ r, r ∈ db.urls → r.short_code = code → r.is_active = false →
        (∀ u ∈ db.urls, u.is_active = true → ¬ u.short_code = code) →
        (get_original_url redis db code true rd now).1 = (.err "Short URL not found", 404)) := by
  constructor
  · intro r hfind hexp
    rw [get_original_url_tracked]
    unfold resolve_from_store
    rw [hfind]
    simp [hexp]
  · intro r hmem hcode hact hnone
    rw [get_original_url_tracked]
    unfold resolve_from_store
    have hfind : db.urls.find? (activeWithCode code) = none := by
      rw [List.find?_eq_none]
      intro u hu
      simp only [activeWithCode, Bool.and_eq_true, beq_iff_eq]
      rintro ⟨hc, ha⟩
      exact hnone u hu ha hc
    rw [hfind]

theorem claim_c5_resolve_failure_modes_witness :
    (get_original_url none sampleExpiredDb "zzz" true none 10).1
        = (.err "Short URL has expired", 410)
    ∧ (get_original_url none sampleDeletedDb "gone" true none 10).1
        = (.err "Short URL not found", 404) :=
  ⟨(claim_c5_resolve_failure_modes none sampleExpiredDb "zzz" none 10).1
      sampleExpiredUrl (by decide) (by decide),
   (claim_c5_resolve_failure_modes none sampleDeletedDb "gone" none 10).2
      sampleDeletedUrl (by decide) rfl rfl (by decide)⟩

/-- C6: cache failures are never surfaced: with a backend whose every call
raises, `CacheManager.get_url` still returns `none` (a miss) rather than
propagating the fault — `set_url` and `delete_url` return `Unit` outright, the
embedded `try/except` having swallowed the error — and both `get_original_url`
and `create_short_url` return exactly the payload, status and database state
they produce with no cache configured at all. -/
theorem claim_c6_cache_never_surfaces (r : RedisClient) (hr : failingBackend r) :
    (∀ code, CacheManager.get_url (some r) code = none)
    ∧ (∀ db code track rd now, get_original_url (some r) db code track rd now
        = get_original_url none db code track rd now)
    ∧ (∀ uv base db url key cc days now,
        create_short_url uv (some r) base db url key cc days now
          = create_short_url uv none base db url key cc days now) := by
  have hget : ∀ code, CacheManager.get_url (some r) code = none := by
    intro code
    simp only [CacheManager.get_url, hr.1]
  refine ⟨hget, ?_, ?_⟩
  · intro db code track rd now
    unfold get_original_url
    rw [hget code]
    exact resolve_from_store_redis (some r) none db code track rd now
  · intro uv base db url key cc days now
    rfl

/-- A concrete always-raising backend. -/
def failingRedis : RedisClient :=
  { get := fun _ => .error (), setex := fun _ _ _ => .error (), del := fun _ => .error () }

theorem failingRedis_failing : failingBackend failingRedis :=
  ⟨fun _ => rfl, fun _ _ _ => rfl, fun _ => rfl⟩

theorem claim_c6_cache_never_surfaces_witness :
    CacheManager.get_url (some failingRedis) "live" = none
    ∧ get_original_url (some failingRedis) sampleLiveDb "live" true none 10
        = get_original_url none sampleLiveDb "live" true none 10
    ∧ create_short_url (fun _ => (true, "Valid URL")) (some failingRedis) "http://sho.rt"
        sampleLiveDb "https://example.com/d" none none none 0
        = create_short_url (fun _ => (true, "Valid URL")) none "http://sho.rt"
        sampleLiveDb "https://example.com/d" none none none 0 :=
  ⟨(claim_c6_cache_never_surfaces failingRedis failingRedis_failing).1 "live",
   (claim_c6_cache_never_surfaces failingRedis failingRedis_failing).2.1
      sampleLiveDb "live" true none 10,
   (claim_c6_cache_never_surfaces failingRedis failingRedis_failing).2.2
      (fun _ => (true, "Valid URL")) "http://sho.rt" sampleLiveDb
      "https://example.com/d" none none none 0⟩

/-- C8 fails on the code: `Counter.get_next_id` performs its read
(`cls.query...first()`) and its write (`counter.value += 1` then `commit`) as
two separate I/O phases with no row lock and no atomic SQL increment, so under
the lost-update interleaving in which both sessions load the seeded row before
either commits, BOTH calls return `100000000001` — the claim requires two
concurrent calls to always return distinct values. -/
theorem claim_c8_counter_race :
    (raceRun ⟨100000000000, none, none, none, none⟩
        [(.A, .load), (.B, .load), (.A, .commit), (.B, .commit)]).retA
      = some 100000000001
    ∧ (raceRun ⟨100000000000, none, none, none, none⟩
        [(.A, .load), (.B, .load), (.A, .commit), (.B, .commit)]).retB
      = some 100000000001 :=
  ⟨rfl, rfl⟩

/-- C9: starting from an absent or freshly seeded counter row, every value a
sequence of `Counter.get_next_id` calls returns exceeds the seed
`100000000000`; the first call returns `100000000001` and each subsequent
sequential call returns exactly the previous value plus one. -/
theorem claim_c9_counter_allocation (s : Option Nat)
    (h : s = none ∨ s = some 100000000000) (k : Nat) :
    (∀ i, i < k → 100000000000 < (counterRuns s k).getD i 0)
    ∧ (0 < k → (counterRuns s k).getD 0 0 = 100000000001)
    ∧ (∀ i, i + 1 < k →
        (counterRuns s k).getD (i + 1) 0 = (counterRuns s k).getD i 0 + 1) := by
  have hruns : counterRuns s k = (List.range k).map (fun i => 100000000001 + i) := by
    have hsome : counterRuns (some 100000000000) k
        = (List.range k).map (fun i => 100000000001 + i) := by
      rw [counterRuns_some]
    rcases h with rfl | rfl
    · cases k with
      | zero => rfl
      | succ k =>
        show 100000000001 :: counterRuns (some 100000000001) k = _
        rw [counterRuns_some, List.range_succ_eq_map, List.map_cons, List.map_map]
        congr 1
        apply List.map_congr_left
        intro i _
        simp only [Function.comp_apply]
        omega
    · exact hsome
  simp only [hruns]
  refine ⟨?_, ?_, ?_⟩
  · intro i hi
    rw [getD_map_range _ _ _ hi]
    omega
  · intro hk
    rw [getD_map_range _ _ _ hk]
  · intro i hi
    rw [getD_map_range _ _ _ hi, getD_map_range _ _ _ (by omega)]
    omega

theorem claim_c9_counter_allocation_witness :
    ((none : Option Nat) = none ∨ (none : Option Nat) = some 100000000000)
    ∧ (1 < 3 ∧ 100000000000 < (counterRuns none 3).getD 1 0)
    ∧ (0 < 3 ∧ (counterRuns none 3).getD 0 0 = 100000000001)
    ∧ (1 + 1 < 3 ∧ (counterRuns none 3).getD 2 0 = (counterRuns none 3).getD 1 0 + 1) :=
  ⟨Or.inl rfl,
   ⟨by norm_num, (claim_c9_counter_allocation none (Or.inl rfl) 3).1 1 (by norm_num)⟩,
   ⟨by norm_num, (claim_c9_counter_allocation none (Or.inl rfl) 3).2.1 (by norm_num)⟩,
   ⟨by norm_num, (claim_c9_counter_allocation none (Or.inl rfl) 3).2.2 1 (by norm_num)⟩⟩

/-- C10: resolving an active, unexpired link with `track_analytics = true` but
no request context still succeeds with status 200, returns the click count
bumped by exactly one, stores that bumped count on the link, and records no
`Analytics` row — so `click_count` can exceed the number of stored `Analytics`
records. -/
theorem claim_c10_click_without_analytics (redis : Option RedisClient) (db : DB)
    (code : String) (now : Nat) (r : URLRec)
    (hfind : db.urls.find? (activeWithCode code) = some r)
    (hexp : r.is_expired now = false) :
    (get_original_url redis db code true none now).1
        = (.ok r.original_url (r.click_count + 1), 200)
    ∧ (get_original_url redis db code true none now).2.analytics = db.analytics
    ∧ (get_original_url redis db code true none now).2.urls.find? (activeWithCode code)
        = some { r with click_count := r.click_count + 1 } := by
  have hp : activeWithCode code { r with click_count := r.click_count + 1 } = true := by
    have hr := List.find?_some hfind
    simpa [activeWithCode] using hr
  refine ⟨?_, ?_, ?_⟩ <;>
    · rw [get_original_url_tracked]
      unfold resolve_from_store
      rw [hfind]
      simp only [hexp, Bool.false_eq_true, if_false]
      try exact find?_updateFirst _ _ db.urls r hfind hp
      try rfl

theorem claim_c10_click_without_analytics_witness :
    sampleLiveDb.urls.find? (activeWithCode "live") = some sampleLiveUrl
    ∧ sampleLiveUrl.is_expired 10 = false
    ∧ (get_original_url none sampleLiveDb "live" true none 10).1
        = (.ok sampleLiveUrl.original_url (sampleLiveUrl.click_count + 1), 200)
    ∧ (get_original_url none sampleLiveDb "live" true none 10).2.analytics
        = sampleLiveDb.analytics
    ∧ (get_original_url none sampleLiveDb "live" true none 10).2.urls.find?
        (activeWithCode "live")
        = some { sampleLiveUrl with click_count := sampleLiveUrl.click_count + 1 } :=
  ⟨by decide, by decide,
   (claim_c10_click_without_analytics none sampleLiveDb "live" 10 sampleLiveUrl
      (by decide) (by decide)).1,
   (claim_c10_click_without_analytics none sampleLiveDb "live" 10 sampleLiveUrl
      (by decide) (by decide)).2.1,
   (claim_c10_click_without_analytics none sampleLiveDb "live" 10 sampleLiveUrl
      (by decide) (by decide)).2.2⟩

/-! ### C3: soft-deleted codes block re-creation (code bug) -/

/-- The C3 scenario: the only row carrying code `"abc"` is soft-deleted. -/
def c3DeletedUrl : URLRec :=
  { id := 1, original_url := "https://old.example.com", short_code := "abc",
    user_id := none, created_at := 0, expires_at := none, is_active := false,
    click_count := 0, is_custom := true }

def c3Db : DB :=
  { urls := [c3DeletedUrl], analytics := [], users := [], counter := some 100000000000,
    next_url_id := 2 }

/-- C3 states what the spec requires, but the code contradicts it: although
the application-level duplicate check filters on `is_active=True` (the store
holds no active `"abc"` and `"abc"` is a valid custom code), the `urls` table
declares a TABLE-WIDE unique index on `short_code` (`unique=True` in
`src/app/models.py`), so the insert commit violates it, the `except` branch
rolls back, and `create_short_url` returns the 500 "Failed to create short
URL" error with the store unchanged — instead of succeeding with 201 and
inserting a new active link as the claim demands. -/
theorem claim_c3_soft_deleted_code_blocks_create :
    c3DeletedUrl.is_active = false
    ∧ c3DeletedUrl.short_code = "abc"
    ∧ (is_valid_custom_code "abc").1 = true
    ∧ c3Db.urls.find? (activeWithCode "abc") = none
    ∧ (create_short_url (fun _ => (true, "Valid URL")) none "http://sho.rt" c3Db
        "https://new.example.com" none (some "abc") none 0).1
        = (.err "Failed to create short URL", 500)
    ∧ (create_short_url (fun _ => (true, "Valid URL")) none "http://sho.rt" c3Db
        "https://new.example.com" none (some "abc") none 0).2 = c3Db :=
  ⟨rfl, rfl, by decide, by decide, by decide, by decide⟩

end UrlShortener
